import Mathlib

/-!
# tutorial_jean: the growth / division behaviour and the population set-up

A shallow embedding of `src/tutorial_jean.h`: the custom cell `MyCell`, the biology
module `GrowthModule::Run`, and the part of `Simulate` that fills the cell container.

Conventions.
* `double` values are rationals (`Rat`): every comparison and sum of the source is taken
  exactly, rounding is outside the model.
* The random source is a stream of draws with a cursor; `Uniform` hands out the next draw.
* The BioDynaMo base class `Cell` is not part of the repository. Its operations that the
  source calls are either modelled from the specification (and marked so) or collected in
  the parameter record `Lib`.
-/

namespace bdm

/-! ## Data model -/

/-- Three real coordinates, the `std::array<double, 3>` of the source. -/
structure Vec3 where
  x : Rat
  y : Rat
  z : Rat
deriving DecidableEq

/-- Componentwise sum of two vectors. -/
def Vec3.add (a b : Vec3) : Vec3 := ⟨a.x + b.x, a.y + b.y, a.z + b.z⟩

/-- The random source: an infinite stream of draws together with a cursor. The stream is the
black box; the cursor is the state that a draw advances. -/
structure Random where
  draws : Nat → Rat
  pos : Nat

/-- The draw that the next call of `Uniform` returns. -/
def Random.peek (random : Random) : Rat := random.draws random.pos

/-- Modelled from the spec: `Uniform(low, high) -> real` of the external random source. The
call returns the next draw of the stream and advances the cursor by one. That the value lies
in the requested range is the contract of the source and is a hypothesis wherever it matters. -/
def Random.Uniform (random : Random) (_low _high : Rat) : Rat × Random :=
  (random.draws random.pos, { random with pos := random.pos + 1 })

/-- A random source that replays the given finite list of draws, then zeros. -/
def Random.ofList (l : List Rat) : Random := ⟨fun n => l.getD n 0, 0⟩

/-- The physical state of the library base class `Cell`: position, diameter and volume. -/
structure Cell where
  position_ : Vec3
  diameter_ : Rat
  volume_ : Rat
deriving DecidableEq

/-- The parts of the BioDynaMo library that the source relies on and that are not rational
computations or not visible: the diameter / volume relation of a sphere, the diameter a
freshly constructed cell has, and the split geometry of `Cell::Divide`, which maps the mother
and the random source to the new mother state, the daughter state and the new random source. -/
structure Lib where
  diameterOf : Rat → Rat
  volumeOf : Rat → Rat
  defaultDiameter : Rat
  Divide : Cell → Random → Cell × Cell × Random

/-- The cell `MyCell` of the source (`BDM_SIM_OBJECT(MyCell, Cell)`): the base cell extended
by the data members `can_divide_` and `cell_colour_`. `growthModule` records whether a
`GrowthModule` has been attached with `AddBiologyModule`. -/
structure MyCell extends Cell where
  can_divide_ : Bool
  cell_colour_ : Int
  growthModule : Bool
deriving DecidableEq

/-! ## Base-class operations -/

/-- Modelled from the spec: the constructor `Base(position)` of the library cell, which places
the cell at `position` with the library default diameter and the matching volume. -/
def Cell.new (lib : Lib) (position : Vec3) : Cell :=
  ⟨position, lib.defaultDiameter, lib.volumeOf lib.defaultDiameter⟩

/-- Getter of the diameter. -/
def Cell.GetDiameter (c : Cell) : Rat := c.diameter_

/-- Getter of the position. -/
def Cell.GetPosition (c : Cell) : Vec3 := c.position_

/-- Setter of the position. -/
def Cell.SetPosition (c : Cell) (p : Vec3) : Cell := { c with position_ := p }

/-- Modelled from the spec: `Cell::SetDiameter`, which stores the diameter and brings the
volume in line with it ("diameter is a derived function of volume"). -/
def Cell.SetDiameter (lib : Lib) (c : Cell) (d : Rat) : Cell :=
  { c with diameter_ := d, volume_ := lib.volumeOf d }

/-- Modelled from the spec: `Cell::ChangeVolume`, "each step increases the agent's volume by a
fixed increment (400 volume-units) - diameter is a derived/monotonic function of volume". The
volume grows by the argument and the diameter is recomputed from the new volume. -/
def Cell.ChangeVolume (lib : Lib) (c : Cell) (speed : Rat) : Cell :=
  { c with volume_ := c.volume_ + speed, diameter_ := lib.diameterOf (c.volume_ + speed) }

/-- Modelled from the spec: `Cell::UpdatePosition`, which "displaces the agent's position by a
random 3-D vector": the displacement is added to the position. -/
def Cell.UpdatePosition (c : Cell) (delta : Vec3) : Cell :=
  { c with position_ := c.position_.add delta }

/-! ## `MyCell` -/

/-- The constructor `MyCellExt(position) : Base(position)`: the new data members are
value-initialised and no biology module is attached. -/
def MyCell.new (lib : Lib) (position : Vec3) : MyCell :=
  { toCell := Cell.new lib position, can_divide_ := false, cell_colour_ := 0,
    growthModule := false }

/-- Setter `SetCanDivide` of the source. -/
def MyCell.SetCanDivide (c : MyCell) (d : Bool) : MyCell := { c with can_divide_ := d }

/-- Getter `GetCanDivide` of the source. -/
def MyCell.GetCanDivide (c : MyCell) : Bool := c.can_divide_

/-- Setter `SetCellColour` of the source. -/
def MyCell.SetCellColour (c : MyCell) (cellColour : Int) : MyCell :=
  { c with cell_colour_ := cellColour }

/-- Getter `GetCellColour` of the source. -/
def MyCell.GetCellColour (c : MyCell) : Int := c.cell_colour_

/-- Attaching the growth module: `AddBiologyModule(GrowthModule<>())`. -/
def MyCell.AddBiologyModule (c : MyCell) : MyCell := { c with growthModule := true }

/-- The inherited `SetDiameter`. -/
def MyCell.SetDiameter (lib : Lib) (c : MyCell) (d : Rat) : MyCell :=
  { c with toCell := c.toCell.SetDiameter lib d }

/-- The inherited `ChangeVolume`. -/
def MyCell.ChangeVolume (lib : Lib) (c : MyCell) (speed : Rat) : MyCell :=
  { c with toCell := c.toCell.ChangeVolume lib speed }

/-- The inherited `UpdatePosition`. -/
def MyCell.UpdatePosition (c : MyCell) (delta : Vec3) : MyCell :=
  { c with toCell := c.toCell.UpdatePosition delta }

/-- The inherited `SetPosition`. -/
def MyCell.SetPosition (c : MyCell) (p : Vec3) : MyCell :=
  { c with toCell := c.toCell.SetPosition p }

/-- The inherited `Divide()`. The library splits the physical state of the mother; it knows
nothing of the members added by `MyCell`, so the mother keeps hers and the daughter starts
with value-initialised ones. The biology module is copied to the daughter, because
`GrowthModule` is constructed with `gAllBmEvents`. Returns mother, daughter, random source. -/
def MyCell.Divide (lib : Lib) (c : MyCell) (random : Random) : MyCell × MyCell × Random :=
  let split := lib.Divide c.toCell random
  ({ c with toCell := split.1 },
   { toCell := split.2.1, can_divide_ := false, cell_colour_ := 0,
     growthModule := c.growthModule },
   split.2.2)

/-! ## `GrowthModule::Run` -/

/-- What one invocation of `Run` leaves behind: the cell it was invoked on, the agents it
created, and the random source. -/
structure RunResult where
  cell : MyCell
  created : List MyCell
  random : Random

/-- The behaviour `GrowthModule::Run` of the source. Below diameter 8 the cell grows and moves
by three draws from `Uniform(-2, 2)`. Otherwise one draw from `Uniform(0, 1)` is made first, and
only then is `GetCanDivide` consulted (left-to-right evaluation of `&&`); the cell divides when
both hold, else its `can_divide_` is set to false. -/
def Run (lib : Lib) (cell : MyCell) (random : Random) : RunResult :=
  if cell.GetDiameter < 8 then
    let cell := cell.ChangeVolume lib 400
    let d1 := random.Uniform (-2) 2
    let d2 := d1.2.Uniform (-2) 2
    let d3 := d2.2.Uniform (-2) 2
    let cell_movements : Vec3 := ⟨d1.1, d2.1, d3.1⟩
    let cell := cell.UpdatePosition cell_movements
    let cell := cell.SetPosition cell.GetPosition
    ⟨cell, [], d3.2⟩
  else
    let u := random.Uniform 0 1
    if u.1 < 4 / 5 && cell.GetCanDivide then
      let division := cell.Divide lib u.2
      let daughter := division.2.1.SetCellColour division.1.GetCellColour
      let daughter := daughter.SetCanDivide true
      ⟨division.1, [daughter], division.2.2⟩
    else
      ⟨cell.SetCanDivide false, [], u.2⟩

/-- A finite sequence of `Run` invocations on one agent, each with its own random source (other
agents may have drawn in between). Returns the agent and every agent created on the way. -/
def RunSeq (lib : Lib) (cell : MyCell) : List Random → MyCell × List MyCell
  | [] => (cell, [])
  | random :: rest =>
    let res := Run lib cell random
    let tail := RunSeq lib res.cell rest
    (tail.1, res.created ++ tail.2)

/-! ## Container and scheduler -/

/-- Modelled from the spec: the agent container, with the live agents, the staging buffer and
the capacity last asked for with `reserve`. -/
structure AgentContainer where
  live : List MyCell
  staged : List MyCell
  reserved : Nat

/-- The empty container that `rm->Get<MyCell>()` returns at start-up. -/
def AgentContainer.empty : AgentContainer := ⟨[], [], 0⟩

/-- Modelled from the spec: `Reserve(n)` has "no observable effect on contents". -/
def AgentContainer.reserve (cells : AgentContainer) (n : Nat) : AgentContainer :=
  { cells with reserved := n }

/-- Modelled from the spec: `Append(agent)` adds the agent "to the staging set (not yet live)". -/
def AgentContainer.push_back (cells : AgentContainer) (cell : MyCell) : AgentContainer :=
  { cells with staged := cells.staged ++ [cell] }

/-- Modelled from the spec: `Commit()` "merges staged agents into the live set, in insertion
order, then clears staging". -/
def AgentContainer.Commit (cells : AgentContainer) : AgentContainer :=
  { cells with live := cells.live ++ cells.staged, staged := [] }

/-- Modelled from the spec: the behaviour phase of a step, "for every live agent that carries a
BehaviorModule, invoke its `Run`", in live order. Returns the live agents after their `Run`,
the daughters staged, and the random source. -/
def behaviourPhase (lib : Lib) : List MyCell → Random → List MyCell × List MyCell × Random
  | [], random => ([], [], random)
  | cell :: rest, random =>
    if cell.growthModule then
      let res := Run lib cell random
      let tail := behaviourPhase lib rest res.random
      (res.cell :: tail.1, res.created ++ tail.2.1, tail.2.2)
    else
      let tail := behaviourPhase lib rest random
      (cell :: tail.1, tail.2.1, tail.2.2)

/-- Modelled from the spec: one step of the scheduler, behaviour phase then commit. The
interaction phase is an external collaborator that only repositions agents and is left out. -/
def Scheduler.step (lib : Lib) (cells : AgentContainer) (random : Random) :
    AgentContainer × Random :=
  let phase := behaviourPhase lib cells.live random
  (AgentContainer.Commit { cells with live := phase.1, staged := cells.staged ++ phase.2.1 },
   phase.2.2)

/-- Modelled from the spec: `scheduler->Simulate(n)` runs `n` steps in sequence. -/
def Scheduler.Simulate (lib : Lib) : Nat → AgentContainer → Random → AgentContainer × Random
  | 0, cells, random => (cells, random)
  | n + 1, cells, random =>
    let next := Scheduler.step lib cells random
    Scheduler.Simulate lib n next.1 next.2

/-! ## `Simulate` -/

/-- The local `size_t nb_of_cells = 2400; // number of cells in the simulation`. -/
def nb_of_cells : Nat := 2400

/-- The parameter `param->min_bound_ = 0`. -/
def min_bound_ : Rat := 0

/-- The parameter `param->max_bound_ = 100`. -/
def max_bound_ : Rat := 100

/-- The C cast `(int) q` of a real: truncation towards zero. -/
def truncToInt (q : Rat) : Int := Int.tdiv q.num q.den

/-- The colour given to a seeded cell: `(int) (y_coord / param->max_bound_ * 6)`. -/
def layerColour (y_coord : Rat) : Int := truncToInt (y_coord / max_bound_ * 6)

/-- The body of the seeding loop: three coordinates are drawn, a cell of diameter 7.5 is built
there and coloured by its layer. -/
def seedCell (lib : Lib) (random : Random) : MyCell × Random :=
  let x_coord := random.Uniform min_bound_ max_bound_
  let y_coord := x_coord.2.Uniform min_bound_ max_bound_
  let z_coord := y_coord.2.Uniform min_bound_ max_bound_
  let cell := MyCell.new lib ⟨x_coord.1, y_coord.1, z_coord.1⟩
  let cell := cell.SetDiameter lib (15 / 2)
  let cell := cell.SetCellColour (layerColour y_coord.1)
  (cell, z_coord.2)

/-- The loop `for (size_t i = 0; i < nb_of_cells; ++i)`, with the number of iterations left. -/
def seedLoop (lib : Lib) : Nat → AgentContainer → Random → AgentContainer × Random
  | 0, cells, random => (cells, random)
  | n + 1, cells, random =>
    let seeded := seedCell lib random
    seedLoop lib n (cells.push_back seeded.1) seeded.2

/-- The cancerous cell of `Simulate`: at (20, 50, 50), diameter 6, colour 8, able to divide,
carrying the growth module. -/
def cancerousCell (lib : Lib) : MyCell :=
  let cell := MyCell.new lib ⟨20, 50, 50⟩
  let cell := cell.SetDiameter lib 6
  let cell := cell.SetCellColour 8
  let cell := cell.SetCanDivide true
  cell.AddBiologyModule

/-- The part of `Simulate` before the scheduler starts, for a given value of the local
variable `nb_of_cells`: reserve that capacity, seed that many cells, add the cancerous cell,
commit. -/
def populateWith (lib : Lib) (nb : Nat) (random : Random) : AgentContainer × Random :=
  let cells := AgentContainer.empty
  let cells := cells.reserve nb
  let seeded := seedLoop lib nb cells random
  let cells := seeded.1.push_back (cancerousCell lib)
  (cells.Commit, seeded.2)

/-- The part of `Simulate` before the scheduler starts, with `nb_of_cells = 2400`. -/
def populate (lib : Lib) (random : Random) : AgentContainer × Random :=
  populateWith lib nb_of_cells random

/-- The function `Simulate` of the source: populate, then `scheduler->Simulate(400)`. -/
def Simulate (lib : Lib) (random : Random) : AgentContainer × Random :=
  let start := populate lib random
  Scheduler.Simulate lib 400 start.1 start.2

/-! ## A concrete library instance, for evaluating the model -/

/-- An instance of the library parameters with a linear diameter / volume relation and an even
split that leaves the random source alone. It serves to run the model on concrete inputs. -/
def evenLib : Lib where
  diameterOf := fun v => v / 64
  volumeOf := fun d => d * 64
  defaultDiameter := 1
  Divide := fun c random =>
    ({ c with volume_ := c.volume_ / 2, diameter_ := c.volume_ / 2 / 64 },
     { c with volume_ := c.volume_ / 2, diameter_ := c.volume_ / 2 / 64 },
     random)

/-- A cell at the origin with the given diameter and divisibility flag, colour 3, carrying the
growth module. -/
def sampleCell (diameter : Rat) (can_divide : Bool) : MyCell :=
  { position_ := ⟨0, 0, 0⟩, diameter_ := diameter, volume_ := diameter * 64,
    can_divide_ := can_divide, cell_colour_ := 3, growthModule := true }

/-! ## `Run`, branch by branch -/

/-- The growing branch of `Run`, written out. -/
lemma Run_growing (lib : Lib) (cell : MyCell) (random : Random) (h : cell.diameter_ < 8) :
    Run lib cell random =
      ⟨{ cell with
          volume_ := cell.volume_ + 400
          diameter_ := lib.diameterOf (cell.volume_ + 400)
          position_ := cell.position_.add
            ⟨random.draws random.pos, random.draws (random.pos + 1),
              random.draws (random.pos + 2)⟩ },
        [], ⟨random.draws, random.pos + 3⟩⟩ := by
  have h' : cell.GetDiameter < 8 := h
  simp [Run, h', MyCell.ChangeVolume, MyCell.UpdatePosition, MyCell.SetPosition,
    Cell.ChangeVolume, Cell.UpdatePosition, Cell.SetPosition, Cell.GetPosition, Random.Uniform]

/-- The dividing branch of `Run`, written out. -/
lemma Run_dividing (lib : Lib) (cell : MyCell) (random : Random) (h : 8 ≤ cell.diameter_)
    (hc : cell.can_divide_ = true) (hu : random.peek < 4 / 5) :
    Run lib cell random =
      ⟨{ cell with toCell := (lib.Divide cell.toCell ⟨random.draws, random.pos + 1⟩).1 },
        [{ toCell := (lib.Divide cell.toCell ⟨random.draws, random.pos + 1⟩).2.1
           can_divide_ := true
           cell_colour_ := cell.cell_colour_
           growthModule := cell.growthModule }],
        (lib.Divide cell.toCell ⟨random.draws, random.pos + 1⟩).2.2⟩ := by
  have h' : ¬ cell.GetDiameter < 8 := not_lt.mpr h
  have hu' : random.draws random.pos < 4 / 5 := hu
  simp [Run, h', hu', hc, MyCell.GetCanDivide, MyCell.Divide, MyCell.SetCellColour,
    MyCell.SetCanDivide, MyCell.GetCellColour, Random.Uniform]

/-- The branch of `Run` on a mature cell that does not divide, written out. -/
lemma Run_idle (lib : Lib) (cell : MyCell) (random : Random) (h : 8 ≤ cell.diameter_)
    (hn : ¬ (cell.can_divide_ = true ∧ random.peek < 4 / 5)) :
    Run lib cell random =
      ⟨{ cell with can_divide_ := false }, [], ⟨random.draws, random.pos + 1⟩⟩ := by
  have h' : ¬ cell.GetDiameter < 8 := not_lt.mpr h
  have hn' : ¬ (random.draws random.pos < 4 / 5 ∧ cell.can_divide_ = true) :=
    fun hx => hn ⟨hx.2, hx.1⟩
  simp only [Run, h', if_false, MyCell.GetCanDivide, Random.Uniform, Bool.and_eq_true,
    decide_eq_true_eq, hn', MyCell.SetCanDivide]

/-- The number of agents one `Run` creates, in closed form. -/
lemma Run_created_length (lib : Lib) (cell : MyCell) (random : Random) :
    (Run lib cell random).created.length =
      if 8 ≤ cell.diameter_ ∧ cell.can_divide_ = true ∧ random.peek < 4 / 5 then 1 else 0 := by
  by_cases h : cell.diameter_ < 8
  · have hn : ¬ (8 ≤ cell.diameter_ ∧ cell.can_divide_ = true ∧ random.peek < 4 / 5) :=
      fun hx => absurd h (not_lt.mpr hx.1)
    rw [Run_growing lib cell random h, if_neg hn]
    rfl
  · have h8 : 8 ≤ cell.diameter_ := not_lt.mp h
    by_cases hd : cell.can_divide_ = true ∧ random.peek < 4 / 5
    · rw [Run_dividing lib cell random h8 hd.1 hd.2, if_pos ⟨h8, hd⟩]
      rfl
    · have hn : ¬ (8 ≤ cell.diameter_ ∧ cell.can_divide_ = true ∧ random.peek < 4 / 5) :=
        fun hx => hd hx.2
      rw [Run_idle lib cell random h8 hd, if_neg hn]
      rfl

/-- The behaviour phase keeps every live agent: the live list has the length it had. -/
lemma behaviourPhase_live_length (lib : Lib) (live : List MyCell) (random : Random) :
    (behaviourPhase lib live random).1.length = live.length := by
  induction live generalizing random with
  | nil => rfl
  | cons cell rest ih =>
    by_cases hg : cell.growthModule = true
    · simp [behaviourPhase, hg, ih]
    · simp [behaviourPhase, hg, ih]

/-- The behaviour phase stages at most one daughter per live agent. -/
lemma behaviourPhase_staged_length (lib : Lib) (live : List MyCell) (random : Random) :
    (behaviourPhase lib live random).2.1.length ≤ live.length := by
  induction live generalizing random with
  | nil => simp [behaviourPhase]
  | cons cell rest ih =>
    by_cases hg : cell.growthModule = true
    · have h1 : (Run lib cell random).created.length ≤ 1 := by
        rw [Run_created_length]
        split <;> simp
      have h2 := ih (Run lib cell random).random
      simp only [behaviourPhase, hg, if_true, List.length_append, List.length_cons]
      omega
    · have h2 := ih random
      simp only [behaviourPhase, hg, List.length_cons]
      simp only [Bool.false_eq_true, if_false]
      omega

/-- The population after the commit of a step: what was there plus what was staged. -/
lemma step_live_length (lib : Lib) (cells : AgentContainer) (random : Random) :
    (Scheduler.step lib cells random).1.live.length =
      cells.live.length + cells.staged.length +
        (behaviourPhase lib cells.live random).2.1.length := by
  simp [Scheduler.step, AgentContainer.Commit, behaviourPhase_live_length]
  omega

/-- On a mature cell that cannot divide, `Run` changes nothing of the cell, creates nothing and
consumes one draw. -/
lemma Run_inert (lib : Lib) (cell : MyCell) (random : Random) (h : 8 ≤ cell.diameter_)
    (hc : cell.can_divide_ = false) :
    Run lib cell random = ⟨cell, [], ⟨random.draws, random.pos + 1⟩⟩ := by
  have hn : ¬ (cell.can_divide_ = true ∧ random.peek < 4 / 5) := by simp [hc]
  rw [Run_idle lib cell random h hn, ← hc]

/-- On a cell that cannot divide, mature or not, `Run` creates nothing and leaves the flag
false. -/
lemma Run_not_divisible (lib : Lib) (cell : MyCell) (random : Random)
    (hc : cell.can_divide_ = false) :
    (Run lib cell random).created = [] ∧ (Run lib cell random).cell.can_divide_ = false := by
  by_cases h : cell.diameter_ < 8
  · rw [Run_growing lib cell random h]
    exact ⟨rfl, hc⟩
  · rw [Run_inert lib cell random (not_lt.mp h) hc]
    exact ⟨rfl, hc⟩

/-- A sequence of `Run` invocations on a mature cell that cannot divide leaves the cell as it
was and creates nothing. -/
lemma RunSeq_inert (lib : Lib) (cell : MyCell) (randoms : List Random)
    (h : 8 ≤ cell.diameter_) (hc : cell.can_divide_ = false) :
    RunSeq lib cell randoms = (cell, []) := by
  induction randoms with
  | nil => rfl
  | cons random rest ih => simp [RunSeq, Run_inert lib cell random h hc, ih]

/-- A sequence of `Run` invocations on a cell that cannot divide creates nothing and leaves the
flag false. -/
lemma RunSeq_not_divisible (lib : Lib) (cell : MyCell) (randoms : List Random)
    (hc : cell.can_divide_ = false) :
    (RunSeq lib cell randoms).2 = [] ∧ (RunSeq lib cell randoms).1.can_divide_ = false := by
  induction randoms generalizing cell with
  | nil => exact ⟨rfl, hc⟩
  | cons random rest ih =>
    have h1 := Run_not_divisible lib cell random hc
    have h2 := ih (Run lib cell random).cell h1.2
    simp [RunSeq, h1.1, h2.1, h2.2]

/-- The truncation of a non-negative real below a positive integer bound lies in the range of
the bound. -/
lemma truncToInt_bounds (q : Rat) (n : Int) (h0 : 0 ≤ q) (hn : q < n) :
    0 ≤ truncToInt q ∧ truncToInt q < n := by
  have hnum : 0 ≤ q.num := Rat.num_nonneg.mpr h0
  have hden : (0 : Int) ≤ (q.den : Int) := Int.natCast_nonneg _
  have hfloor : truncToInt q = ⌊q⌋ := by
    rw [truncToInt, Int.tdiv_eq_ediv hnum hden, Rat.floor_def]
  rw [hfloor]
  exact ⟨Int.floor_nonneg.mpr h0, Int.floor_lt.mpr hn⟩

/-- The seeding loop only stages: `n` iterations add `n` staged cells and touch neither the
live cells nor the reserved capacity. -/
lemma seedLoop_counts (lib : Lib) (n : Nat) (cells : AgentContainer) (random : Random) :
    (seedLoop lib n cells random).1.staged.length = cells.staged.length + n ∧
    (seedLoop lib n cells random).1.live = cells.live ∧
    (seedLoop lib n cells random).1.reserved = cells.reserved := by
  induction n generalizing cells random with
  | zero => exact ⟨rfl, rfl, rfl⟩
  | succ n ih =>
    have h := ih (cells.push_back (seedCell lib random).1) (seedCell lib random).2
    simp only [seedLoop]
    refine ⟨?_, h.2.1, h.2.2⟩
    rw [h.1]
    simp [AgentContainer.push_back]
    omega

/-- What the set-up leaves in the container, for any value of the local `nb_of_cells`: one
live cell more than that value, an empty staging buffer, and that value as reserved capacity. -/
lemma populateWith_counts (lib : Lib) (nb : Nat) (random : Random) :
    (populateWith lib nb random).1.live.length = nb + 1 ∧
    (populateWith lib nb random).1.staged = [] ∧
    (populateWith lib nb random).1.reserved = nb := by
  have hloop := seedLoop_counts lib nb (AgentContainer.reserve AgentContainer.empty nb) random
  refine ⟨?_, rfl, ?_⟩
  · simp only [populateWith, AgentContainer.Commit, AgentContainer.push_back,
      List.length_append, List.length_cons, List.length_nil, hloop.1, hloop.2.1]
    simp [AgentContainer.reserve, AgentContainer.empty]
  · simp only [populateWith, AgentContainer.Commit, AgentContainer.push_back, hloop.2.2]
    rfl

/-- The set-up of `Simulate` is the general set-up at `nb_of_cells`. -/
lemma populate_eq (lib : Lib) (random : Random) :
    populate lib random = populateWith lib nb_of_cells random := rfl

/-! ## The claims -/

/-- C1: one invocation of `Run` creates exactly one new agent when the diameter is at least 8,
`can_divide_` is true and the draw is below 0.8, and creates none in every other case (the
boundaries diameter = 8 and draw = 0.8 included, whatever the draw is). `Run` never removes or
merges an agent: the behaviour phase keeps every live agent, and the population after the
commit of a step is the population before plus the daughters staged, at most one per agent. -/
theorem Run_creates_one_iff_mature_divisible_lucky (lib : Lib) (cell : MyCell)
    (random : Random) (cells : AgentContainer) :
    ((Run lib cell random).created.length = 1 ↔
        (8 ≤ cell.diameter_ ∧ cell.can_divide_ = true ∧ random.peek < 4 / 5)) ∧
    ((Run lib cell random).created.length =
        if 8 ≤ cell.diameter_ ∧ cell.can_divide_ = true ∧ random.peek < 4 / 5
        then 1 else 0) ∧
    ((cell :: (Run lib cell random).created).length = 1 ∨
        (cell :: (Run lib cell random).created).length = 2) ∧
    (behaviourPhase lib cells.live random).1.length = cells.live.length ∧
    (behaviourPhase lib cells.live random).2.1.length ≤ cells.live.length ∧
    (Scheduler.step lib cells random).1.live.length =
      cells.live.length + cells.staged.length +
        (behaviourPhase lib cells.live random).2.1.length := by
  have hlen := Run_created_length lib cell random
  refine ⟨?_, hlen, ?_, behaviourPhase_live_length lib _ _,
    behaviourPhase_staged_length lib _ _, step_live_length lib _ _⟩
  · rw [hlen]
    split <;> simp_all
  · rw [List.length_cons, hlen]
    split <;> simp

/-- C2: when a mature cell (diameter at least 8) with `can_divide_` true draws below 0.8, `Run`
creates one daughter whose colour is the parent's and whose `can_divide_` is true, and the
parent keeps its colour and keeps `can_divide_` true. -/
theorem Run_daughter_inherits (lib : Lib) (cell : MyCell) (random : Random)
    (h : 8 ≤ cell.diameter_) (hc : cell.can_divide_ = true) (hu : random.peek < 4 / 5) :
    ∃ daughter : MyCell, (Run lib cell random).created = [daughter] ∧
      daughter.cell_colour_ = cell.cell_colour_ ∧ daughter.can_divide_ = true ∧
      (Run lib cell random).cell.cell_colour_ = cell.cell_colour_ ∧
      (Run lib cell random).cell.can_divide_ = true := by
  rw [Run_dividing lib cell random h hc hu]
  exact ⟨_, rfl, rfl, rfl, rfl, hc⟩

/-- C2 at a concrete input: a cell of diameter 8 that may divide and draws 0.1. -/
theorem Run_daughter_inherits_witness :
    ∃ daughter : MyCell,
      (Run evenLib (sampleCell 8 true) (Random.ofList [1 / 10])).created = [daughter] ∧
      daughter.cell_colour_ = (sampleCell 8 true).cell_colour_ ∧
      daughter.can_divide_ = true ∧
      (Run evenLib (sampleCell 8 true) (Random.ofList [1 / 10])).cell.cell_colour_ =
        (sampleCell 8 true).cell_colour_ ∧
      (Run evenLib (sampleCell 8 true) (Random.ofList [1 / 10])).cell.can_divide_ = true :=
  Run_daughter_inherits evenLib (sampleCell 8 true) (Random.ofList [1 / 10])
    (by simp [sampleCell]) (by simp [sampleCell])
    (by norm_num [Random.peek, Random.ofList])

/-- C3: for a cell of diameter below 8 whose next three draws lie in [-2, 2], `Run` adds 400 to
the volume, does not decrease the diameter (the diameter being the monotone function of the
volume that the library computes), moves the position by exactly the three draws, so each
coordinate shifts by an amount in [-2, 2], creates no agent, and leaves `can_divide_` and
`cell_colour_` as they were. -/
theorem Run_growing_step (lib : Lib) (cell : MyCell) (random : Random)
    (h : cell.diameter_ < 8)
    (hmono : Monotone lib.diameterOf) (hcons : cell.diameter_ = lib.diameterOf cell.volume_)
    (h1 : -2 ≤ random.draws random.pos ∧ random.draws random.pos ≤ 2)
    (h2 : -2 ≤ random.draws (random.pos + 1) ∧ random.draws (random.pos + 1) ≤ 2)
    (h3 : -2 ≤ random.draws (random.pos + 2) ∧ random.draws (random.pos + 2) ≤ 2) :
    (Run lib cell random).cell.volume_ = cell.volume_ + 400 ∧
    cell.diameter_ ≤ (Run lib cell random).cell.diameter_ ∧
    (Run lib cell random).cell.position_ =
      cell.position_.add ⟨random.draws random.pos, random.draws (random.pos + 1),
        random.draws (random.pos + 2)⟩ ∧
    (-2 ≤ (Run lib cell random).cell.position_.x - cell.position_.x ∧
      (Run lib cell random).cell.position_.x - cell.position_.x ≤ 2) ∧
    (-2 ≤ (Run lib cell random).cell.position_.y - cell.position_.y ∧
      (Run lib cell random).cell.position_.y - cell.position_.y ≤ 2) ∧
    (-2 ≤ (Run lib cell random).cell.position_.z - cell.position_.z ∧
      (Run lib cell random).cell.position_.z - cell.position_.z ≤ 2) ∧
    (Run lib cell random).created = [] ∧
    (Run lib cell random).cell.can_divide_ = cell.can_divide_ ∧
    (Run lib cell random).cell.cell_colour_ = cell.cell_colour_ := by
  rw [Run_growing lib cell random h]
  refine ⟨rfl, ?_, rfl, ?_, ?_, ?_, rfl, rfl, rfl⟩
  · show cell.diameter_ ≤ lib.diameterOf (cell.volume_ + 400)
    rw [hcons]
    exact hmono (by linarith)
  · simp only [Vec3.add]
    constructor <;> linarith [h1.1, h1.2]
  · simp only [Vec3.add]
    constructor <;> linarith [h2.1, h2.2]
  · simp only [Vec3.add]
    constructor <;> linarith [h3.1, h3.2]

/-- C3 at a concrete input: a cell of diameter 5 (volume 320) and the draws 1, -2, 2. -/
theorem Run_growing_step_witness :
    (Run evenLib (sampleCell 5 false) (Random.ofList [1, -2, 2])).cell.volume_ = 320 + 400 ∧
    (5 : Rat) ≤ (Run evenLib (sampleCell 5 false) (Random.ofList [1, -2, 2])).cell.diameter_ ∧
    (Run evenLib (sampleCell 5 false) (Random.ofList [1, -2, 2])).cell.position_ =
      ⟨1, -2, 2⟩ ∧
    (Run evenLib (sampleCell 5 false) (Random.ofList [1, -2, 2])).created = [] := by
  have hw := Run_growing_step evenLib (sampleCell 5 false) (Random.ofList [1, -2, 2])
    (by norm_num [sampleCell])
    (fun a b hab => by simp only [evenLib]; linarith)
    (by norm_num [sampleCell, evenLib])
    (by norm_num [Random.ofList]) (by norm_num [Random.ofList])
    (by norm_num [Random.ofList])
  refine ⟨?_, hw.2.1, ?_, hw.2.2.2.2.2.2.1⟩
  · rw [hw.1]; norm_num [sampleCell]
  · rw [hw.2.2.1]; norm_num [sampleCell, Vec3.add, Random.ofList]

/-- C4, the scenario as stated fails: the cancerous cell of `Simulate` (diameter 6, able to
divide, growth module attached) alone in the container, one step with every draw equal to 0.1,
leaves a population of one, not two. -/
theorem step_cancerous_cell_population_one :
    (Scheduler.step evenLib ⟨[cancerousCell evenLib], [], 0⟩
        (Random.ofList [1 / 10, 1 / 10, 1 / 10])).1.live.length = 1 ∧
    (Scheduler.step evenLib ⟨[cancerousCell evenLib], [], 0⟩
        (Random.ofList [1 / 10, 1 / 10, 1 / 10])).1.live.length ≠ 2 := by
  have h6 : (cancerousCell evenLib).diameter_ < 8 := by
    norm_num [cancerousCell, MyCell.AddBiologyModule, MyCell.SetCanDivide,
      MyCell.SetCellColour, MyCell.SetDiameter, Cell.SetDiameter]
  have hg : (cancerousCell evenLib).growthModule = true := rfl
  have hlen : (Scheduler.step evenLib ⟨[cancerousCell evenLib], [], 0⟩
      (Random.ofList [1 / 10, 1 / 10, 1 / 10])).1.live.length = 1 := by
    simp [Scheduler.step, AgentContainer.Commit, behaviourPhase, hg, Run_growing _ _ _ h6]
  exact ⟨hlen, by rw [hlen]; decide⟩

/-- C4, amended: the cancerous cell of `Simulate` has diameter 6, so a step in which it is the
only agent takes the growing branch whatever the draws are: exactly the three movement draws
are consumed (the cursor of the random source advances by three over the same stream), so no
division draw is made, nothing is staged, and the population stays at one agent, still with
`can_divide_` true. A step yields two agents, both with `can_divide_` true, when the single
agent is mature (diameter at least 8), may divide, carries the growth module and the division
draw is 0.1. -/
theorem step_single_agent (lib : Lib) (random : Random) (cell : MyCell) (random' : Random)
    (n : Nat) (h : 8 ≤ cell.diameter_) (hc : cell.can_divide_ = true)
    (hg : cell.growthModule = true) (hu : random'.peek = 1 / 10) :
    ((Scheduler.step lib ⟨[cancerousCell lib], [], n⟩ random).1.live.length = 1 ∧
      (∀ c ∈ (Scheduler.step lib ⟨[cancerousCell lib], [], n⟩ random).1.live,
        c.can_divide_ = true) ∧
      (behaviourPhase lib [cancerousCell lib] random).2.1 = [] ∧
      (Scheduler.step lib ⟨[cancerousCell lib], [], n⟩ random).2.draws = random.draws ∧
      (Scheduler.step lib ⟨[cancerousCell lib], [], n⟩ random).2.pos = random.pos + 3) ∧
    ((Scheduler.step lib ⟨[cell], [], n⟩ random').1.live.length = 2 ∧
      (∀ c ∈ (Scheduler.step lib ⟨[cell], [], n⟩ random').1.live, c.can_divide_ = true)) := by
  have h6 : (cancerousCell lib).diameter_ < 8 := by
    norm_num [cancerousCell, MyCell.AddBiologyModule, MyCell.SetCanDivide,
      MyCell.SetCellColour, MyCell.SetDiameter, Cell.SetDiameter]
  have hg6 : (cancerousCell lib).growthModule = true := rfl
  have hc6 : (cancerousCell lib).can_divide_ = true := rfl
  have hu' : random'.peek < 4 / 5 := by rw [hu]; norm_num
  constructor
  · simp [Scheduler.step, AgentContainer.Commit, behaviourPhase, hg6, hc6,
      Run_growing _ _ _ h6]
  · simp [Scheduler.step, AgentContainer.Commit, behaviourPhase, hg,
      Run_dividing lib cell random' h hc hu', hc]

/-- C4 amended, at a concrete input: the cancerous cell alone consumes three draws and stays
alone; a single mature cell of diameter 8 with the draw 0.1 becomes two. -/
theorem step_single_agent_witness :
    (Scheduler.step evenLib ⟨[cancerousCell evenLib], [], 0⟩
        (Random.ofList [1 / 10])).1.live.length = 1 ∧
    (Scheduler.step evenLib ⟨[cancerousCell evenLib], [], 0⟩
        (Random.ofList [1 / 10])).2.pos = (Random.ofList [1 / 10]).pos + 3 ∧
    (Scheduler.step evenLib ⟨[sampleCell 8 true], [], 0⟩
        (Random.ofList [1 / 10])).1.live.length = 2 := by
  have hw := step_single_agent evenLib (Random.ofList [1 / 10]) (sampleCell 8 true)
    (Random.ofList [1 / 10]) 0 (by norm_num [sampleCell]) rfl rfl
    (by norm_num [Random.peek, Random.ofList])
  exact ⟨hw.1.1, hw.1.2.2.2.2, hw.2.1⟩

/-- C5, the claim as stated fails: a cell of diameter 5 with `can_divide_` false is moved by a
single `Run` (draws 1, 1, 1) from the origin to (1, 1, 1), and its diameter changes as well. -/
theorem RunSeq_moves_immature_cell :
    (sampleCell 5 false).can_divide_ = false ∧
    (RunSeq evenLib (sampleCell 5 false) [Random.ofList [1, 1, 1]]).1.position_ ≠
      (sampleCell 5 false).position_ ∧
    (RunSeq evenLib (sampleCell 5 false) [Random.ofList [1, 1, 1]]).1.diameter_ ≠
      (sampleCell 5 false).diameter_ := by
  have h5 : (sampleCell 5 false).diameter_ < 8 := by norm_num [sampleCell]
  refine ⟨rfl, ?_, ?_⟩
  · simp only [RunSeq, Run_growing _ _ _ h5]
    intro hpos
    have hx := congrArg Vec3.x hpos
    norm_num [sampleCell, Vec3.add, Random.ofList] at hx
  · simp only [RunSeq, Run_growing _ _ _ h5]
    norm_num [sampleCell, evenLib]

/-- C5, amended: for every mature cell (diameter at least 8) whose `can_divide_` is false and
every finite sequence of `Run` invocations on it, with arbitrary random sources, the diameter
and the position after the sequence are those before it; the whole cell is unchanged. -/
theorem RunSeq_mature_inert (lib : Lib) (cell : MyCell) (randoms : List Random)
    (h : 8 ≤ cell.diameter_) (hc : cell.can_divide_ = false) :
    (RunSeq lib cell randoms).1.diameter_ = cell.diameter_ ∧
    (RunSeq lib cell randoms).1.position_ = cell.position_ ∧
    (RunSeq lib cell randoms).1 = cell := by
  rw [RunSeq_inert lib cell randoms h hc]
  exact ⟨rfl, rfl, rfl⟩

/-- C5 amended, at a concrete input: a cell of diameter 9 that cannot divide, run three times. -/
theorem RunSeq_mature_inert_witness :
    (RunSeq evenLib (sampleCell 9 false)
        [Random.ofList [1 / 10], Random.ofList [9 / 10], Random.ofList []]).1.diameter_ =
      (sampleCell 9 false).diameter_ ∧
    (RunSeq evenLib (sampleCell 9 false)
        [Random.ofList [1 / 10], Random.ofList [9 / 10], Random.ofList []]).1.position_ =
      (sampleCell 9 false).position_ :=
  let hw := RunSeq_mature_inert evenLib (sampleCell 9 false)
    [Random.ofList [1 / 10], Random.ofList [9 / 10], Random.ofList []]
    (by norm_num [sampleCell]) rfl
  ⟨hw.1, hw.2.1⟩

/-- C6, the claim as stated fails: a mature cell that may divide and draws 0.9 does not re-roll.
A second `Run` on the resulting cell with the draw 0.1 creates no agent. -/
theorem Run_no_reroll_after_failed_draw :
    8 ≤ (sampleCell 8 true).diameter_ ∧ (sampleCell 8 true).can_divide_ = true ∧
    4 / 5 ≤ (Random.ofList [9 / 10]).peek ∧ (Random.ofList [1 / 10]).peek < 4 / 5 ∧
    (Run evenLib (Run evenLib (sampleCell 8 true) (Random.ofList [9 / 10])).cell
      (Random.ofList [1 / 10])).created = [] := by
  have h8 : 8 ≤ (sampleCell 8 true).diameter_ := by norm_num [sampleCell]
  have hn : ¬ ((sampleCell 8 true).can_divide_ = true ∧
      (Random.ofList [9 / 10]).peek < 4 / 5) := by
    norm_num [Random.peek, Random.ofList]
  refine ⟨h8, rfl, by norm_num [Random.peek, Random.ofList],
    by norm_num [Random.peek, Random.ofList], ?_⟩
  rw [Run_idle _ _ _ h8 hn]
  exact (Run_not_divisible _ _ _ rfl).1

/-- C6, amended: for every mature cell (diameter at least 8) with `can_divide_` true, when the
draw is at least 0.8 `Run` creates no agent, leaves the diameter unchanged and sets
`can_divide_` to false; a second `Run` on the resulting cell creates no agent whatever it
draws. -/
theorem Run_failed_draw_is_terminal (lib : Lib) (cell : MyCell) (random random' : Random)
    (h : 8 ≤ cell.diameter_) (_hc : cell.can_divide_ = true) (hu : 4 / 5 ≤ random.peek) :
    (Run lib cell random).created = [] ∧
    (Run lib cell random).cell.diameter_ = cell.diameter_ ∧
    (Run lib cell random).cell.can_divide_ = false ∧
    (Run lib (Run lib cell random).cell random').created = [] := by
  have hn : ¬ (cell.can_divide_ = true ∧ random.peek < 4 / 5) :=
    fun hx => absurd hx.2 (not_lt.mpr hu)
  have hrun := Run_idle lib cell random h hn
  refine ⟨by rw [hrun], by rw [hrun], by rw [hrun], ?_⟩
  exact (Run_not_divisible lib _ random' (by rw [hrun])).1

/-- C6 amended, at a concrete input: a cell of diameter 8 that draws 0.9, then 0.1. -/
theorem Run_failed_draw_is_terminal_witness :
    (Run evenLib (sampleCell 8 true) (Random.ofList [9 / 10])).created = [] ∧
    (Run evenLib (sampleCell 8 true) (Random.ofList [9 / 10])).cell.diameter_ =
      (sampleCell 8 true).diameter_ ∧
    (Run evenLib (sampleCell 8 true) (Random.ofList [9 / 10])).cell.can_divide_ = false ∧
    (Run evenLib (Run evenLib (sampleCell 8 true) (Random.ofList [9 / 10])).cell
      (Random.ofList [1 / 10])).created = [] :=
  Run_failed_draw_is_terminal evenLib (sampleCell 8 true) (Random.ofList [9 / 10])
    (Random.ofList [1 / 10]) (by norm_num [sampleCell]) rfl
    (by norm_num [Random.peek, Random.ofList])

/-- C7, the claim as stated fails: on a mature cell with `can_divide_` false, `Run` still draws
from the random source. The cursor stands at 1 after the `Run` and at 0 before it. -/
theorem Run_inert_cell_draws :
    8 ≤ (sampleCell 8 false).diameter_ ∧ (sampleCell 8 false).can_divide_ = false ∧
    (Run evenLib (sampleCell 8 false) (Random.ofList [])).random.pos = 1 ∧
    (Random.ofList []).pos = 0 ∧
    (Run evenLib (sampleCell 8 false) (Random.ofList [])).random ≠ Random.ofList [] := by
  have h8 : 8 ≤ (sampleCell 8 false).diameter_ := by norm_num [sampleCell]
  have hrun := Run_inert evenLib (sampleCell 8 false) (Random.ofList []) h8 rfl
  refine ⟨h8, rfl, by rw [hrun]; rfl, rfl, ?_⟩
  intro heq
  have hpos := congrArg Random.pos heq
  rw [hrun] at hpos
  exact absurd hpos (by decide)

/-- C7, amended: for every mature cell (diameter at least 8) with `can_divide_` false, `Run`
leaves the cell unchanged (diameter, position, colour, flag), creates no agent, and consumes
exactly one draw: the probability draw is made before `can_divide_` is tested, so the cursor of
the random source advances by one over the same stream. -/
theorem Run_mature_inert_frame (lib : Lib) (cell : MyCell) (random : Random)
    (h : 8 ≤ cell.diameter_) (hc : cell.can_divide_ = false) :
    (Run lib cell random).cell = cell ∧
    (Run lib cell random).cell.diameter_ = cell.diameter_ ∧
    (Run lib cell random).cell.position_ = cell.position_ ∧
    (Run lib cell random).cell.cell_colour_ = cell.cell_colour_ ∧
    (Run lib cell random).cell.can_divide_ = cell.can_divide_ ∧
    (Run lib cell random).created = [] ∧
    (Run lib cell random).random.draws = random.draws ∧
    (Run lib cell random).random.pos = random.pos + 1 := by
  rw [Run_inert lib cell random h hc]
  exact ⟨rfl, rfl, rfl, rfl, rfl, rfl, rfl, rfl⟩

/-- C7 amended, at a concrete input: a cell of diameter 8 that cannot divide. -/
theorem Run_mature_inert_frame_witness :
    (Run evenLib (sampleCell 8 false) (Random.ofList [1 / 10])).cell = sampleCell 8 false ∧
    (Run evenLib (sampleCell 8 false) (Random.ofList [1 / 10])).created = [] ∧
    (Run evenLib (sampleCell 8 false) (Random.ofList [1 / 10])).random.pos =
      (Random.ofList [1 / 10]).pos + 1 :=
  let hw := Run_mature_inert_frame evenLib (sampleCell 8 false) (Random.ofList [1 / 10])
    (by norm_num [sampleCell]) rfl
  ⟨hw.1, hw.2.2.2.2.2.1, hw.2.2.2.2.2.2.2⟩

/-- C8: `Run` never turns the `can_divide_` flag of the cell it is invoked on from false to
true: a true flag after `Run` was true before. Every agent `Run` creates has the flag true, so
daughters are the only agents that acquire it. A cell whose flag is false creates nothing and
keeps the flag false through every finite sequence of `Run` invocations, so it never divides
in a later step. -/
theorem can_divide_terminal (lib : Lib) (cell : MyCell) (random : Random)
    (randoms : List Random) :
    ((Run lib cell random).cell.can_divide_ = true → cell.can_divide_ = true) ∧
    (∀ daughter ∈ (Run lib cell random).created, daughter.can_divide_ = true) ∧
    (cell.can_divide_ = false →
      (RunSeq lib cell randoms).2 = [] ∧ (RunSeq lib cell randoms).1.can_divide_ = false) := by
  refine ⟨?_, ?_, RunSeq_not_divisible lib cell randoms⟩
  · intro hafter
    by_contra hbefore
    have hfalse : cell.can_divide_ = false := by simpa using hbefore
    rw [(Run_not_divisible lib cell random hfalse).2] at hafter
    exact absurd hafter (by decide)
  · intro daughter hmem
    by_cases h : cell.diameter_ < 8
    · rw [Run_growing lib cell random h] at hmem
      simp at hmem
    · by_cases hd : cell.can_divide_ = true ∧ random.peek < 4 / 5
      · rw [Run_dividing lib cell random (not_lt.mp h) hd.1 hd.2] at hmem
        simp only [List.mem_singleton] at hmem
        rw [hmem]
      · rw [Run_idle lib cell random (not_lt.mp h) hd] at hmem
        simp at hmem

/-- C8 at a concrete input: a cell of diameter 5 that cannot divide grows past diameter 8 in
the first `Run` and still creates nothing in the two that follow, the draw 0.1 included. -/
theorem can_divide_terminal_witness :
    (RunSeq evenLib (sampleCell 5 false)
      [Random.ofList [1, 1, 1], Random.ofList [1 / 10], Random.ofList [1 / 10]]).2 = [] ∧
    (RunSeq evenLib (sampleCell 5 false)
      [Random.ofList [1, 1, 1], Random.ofList [1 / 10],
        Random.ofList [1 / 10]]).1.can_divide_ = false :=
  (can_divide_terminal evenLib (sampleCell 5 false) (Random.ofList [])
    [Random.ofList [1, 1, 1], Random.ofList [1 / 10], Random.ofList [1 / 10]]).2.2 rfl

/-- C9, the claim as stated fails at the upper end of the range: for `y_coord` equal to
`max_bound_` = 100 the colour computed is 6, outside 0 .. 5. -/
theorem layerColour_at_max_bound :
    min_bound_ ≤ (100 : Rat) ∧ (100 : Rat) ≤ max_bound_ ∧ layerColour 100 = 6 := by
  refine ⟨by norm_num [min_bound_], by norm_num [max_bound_], ?_⟩
  have hq : ((100 : Rat) / max_bound_ * 6) = 6 := by norm_num [max_bound_]
  rw [layerColour, hq]
  rfl

/-- C9, amended: for every `y_coord` with `min_bound_` ≤ `y_coord` < `max_bound_` (0 included,
100 excluded) the colour of a seeded cell, the truncation of `y_coord / max_bound_ * 6`, lies
in 0 .. 5. -/
theorem layerColour_range (y_coord : Rat) (h0 : min_bound_ ≤ y_coord)
    (h1 : y_coord < max_bound_) :
    0 ≤ layerColour y_coord ∧ layerColour y_coord ≤ 5 := by
  have h0' : (0 : Rat) ≤ y_coord := h0
  have h1' : y_coord < 100 := h1
  have hq0 : (0 : Rat) ≤ y_coord / max_bound_ * 6 := by
    simp only [max_bound_]; linarith
  have hq6 : y_coord / max_bound_ * 6 < ((6 : Int) : Rat) := by
    simp only [max_bound_]; push_cast; linarith
  have hb := truncToInt_bounds _ 6 hq0 hq6
  exact ⟨hb.1, by have := hb.2; unfold layerColour; omega⟩

/-- C9 amended, at a concrete input: `y_coord` = 50 falls in layer 3. -/
theorem layerColour_range_witness :
    min_bound_ ≤ (50 : Rat) ∧ (50 : Rat) < max_bound_ ∧
    0 ≤ layerColour 50 ∧ layerColour 50 ≤ 5 :=
  ⟨by norm_num [min_bound_], by norm_num [max_bound_],
    layerColour_range 50 (by norm_num [min_bound_]) (by norm_num [max_bound_])⟩

/-- C10: the code at work. Whatever the random source, `Simulate` has committed
`nb_of_cells + 1` = 2401 cells before the first step, the seeded ones and the cancerous cell,
while capacity was reserved for `nb_of_cells` = 2400. -/
theorem populate_commits_one_more_than_reserved (lib : Lib) (random : Random) :
    (populate lib random).1.live.length = nb_of_cells + 1 ∧
    (populate lib random).1.live.length = 2401 ∧
    (populate lib random).1.reserved = 2400 ∧
    (populate lib random).1.staged = [] ∧
    (populate lib random).1.live.length ≠ nb_of_cells := by
  have h := populateWith_counts lib nb_of_cells random
  have hnb : nb_of_cells = 2400 := rfl
  rw [populate_eq]
  refine ⟨h.1, ?_, ?_, h.2.1, ?_⟩
  · rw [h.1, hnb]
  · rw [h.2.2, hnb]
  · rw [h.1]
    exact Nat.succ_ne_self nb_of_cells

end bdm
